import Mathlib

/-!
Verification of the empanada-napari finetuning driver and slice-inference widget.

This file gives a shallow embedding of the logic in
`empanada_napari/finetune.py` and `empanada_napari/_slice_inference.py`:

* parameters are identified by their dotted paths (strings); a model is a
  tree of modules, each owning a list of directly-registered parameter
  leaf names, mirroring `torch.nn.Module` / `named_modules` /
  `named_parameters`;
* Python's substring test `a in b` and `str.endswith` are modelled over
  the character lists of strings;
* Python `set`s of parameter names are modelled as deduplicated lists,
  `sorted` as an insertion sort over a code-point lexicographic order;
* optimizer keyword arguments (floats in the source) are modelled as
  rational values in an association list;
* exceptions (assertion failures, attribute errors) are modelled with
  `Except String`.
-/

namespace Empanada

/-! ### String helpers -/

/-- Python's `needle in hay` substring test. -/
def strIn (needle hay : String) : Bool :=
  decide (needle.data <:+: hay.data)

/-- Python's `s.endswith(suf)`. -/
def strEndsWith (s suf : String) : Bool :=
  decide (suf.data <:+ s.data)

/-- `'%s.%s' % (mn, pn) if mn else pn` — joining of module path and member
name, as in `named_modules`/`named_parameters` and `configure_optimizer`. -/
def joinName (mn pn : String) : String :=
  if mn = "" then pn else mn ++ "." ++ pn

/-- Code-point lexicographic comparison of character lists, the order used
by Python's `sorted` on strings. -/
def strLeB : List Char → List Char → Bool
  | [], _ => true
  | _ :: _, [] => false
  | a :: as, b :: bs =>
      decide (a.toNat < b.toNat) || (decide (a.toNat = b.toNat) && strLeB as bs)

/-- Code-point lexicographic `≤` on strings. -/
def strLe (s t : String) : Bool := strLeB s.data t.data

/-- Insert into a lexicographically sorted list. -/
def insertSorted (x : String) : List String → List String
  | [] => [x]
  | y :: ys => if strLe x y then x :: y :: ys else y :: insertSorted x ys

/-- Python's `sorted` on a list of strings (insertion sort; agrees with any
stable sort on lists of distinct strings). -/
def sortStrings : List String → List String
  | [] => []
  | x :: xs => insertSorted x (sortStrings xs)

/-! ### The module tree (`torch.nn.Module`) -/

mutual

/-- A `torch.nn.Module`: whether it is a `torch.nn.BatchNorm2d` (the only
module kind `configure_optimizer` blacklists), the leaf names of its
directly-owned parameters (`named_parameters(recurse=False)`), and its
named children. -/
inductive NNModule : Type where
  | mk (isBatchNorm2d : Bool) (directParams : List String) (children : Children) : NNModule

/-- Named child modules of a module. -/
inductive Children : Type where
  | nil : Children
  | cons (name : String) (child : NNModule) (rest : Children) : Children

end

def NNModule.isBatchNorm2d : NNModule → Bool
  | .mk b _ _ => b

def NNModule.directParams : NNModule → List String
  | .mk _ ps _ => ps

mutual

/-- `model.named_modules()` with a given path for the root: the module
itself first, then all descendants, each with its dotted path. -/
def namedModulesAux : String → NNModule → List (String × NNModule)
  | mn, NNModule.mk b ps cs => (mn, NNModule.mk b ps cs) :: namedChildrenAux mn cs

/-- Traversal of the named children for `namedModulesAux`. -/
def namedChildrenAux : String → Children → List (String × NNModule)
  | _, Children.nil => []
  | mn, Children.cons cn c rest =>
      namedModulesAux (joinName mn cn) c ++ namedChildrenAux mn rest

end

/-- `model.named_modules()` (root has the empty path). -/
def namedModules (m : NNModule) : List (String × NNModule) :=
  namedModulesAux "" m

/-- One `(module, parameter)` pair of the loop in `configure_optimizer`:
the owning module's path and blacklist status, and the parameter's leaf
name. -/
structure ParamEntry where
  modulePath : String
  moduleIsBN : Bool
  leafName : String
  deriving Repr, DecidableEq

/-- The `full_name` built in `configure_optimizer`. -/
def paramEntryFullName (e : ParamEntry) : String :=
  joinName e.modulePath e.leafName

/-- All `(module, parameter)` pairs visited by
`for mn, m in model.named_modules(): for pn, p in m.named_parameters(recurse=False)`. -/
def paramEntries (m : NNModule) : List ParamEntry :=
  (namedModules m).flatMap fun p =>
    ( NNModule.directParams p.2).map fun pn =>
      { modulePath := p.1, moduleIsBN := NNModule.isBatchNorm2d p.2, leafName := pn }

/-- `model.named_parameters()`: the full dotted path of every parameter,
in traversal order (also the keys of `param_dict`). -/
def namedParameters (m : NNModule) : List String :=
  (paramEntries m).map paramEntryFullName

/-! ### `configure_optimizer` (finetune.py lines 187-232) -/

/-- The classification of one parameter in `configure_optimizer`:
`full_name.endswith('bias')` goes to `no_decay`;
`full_name.endswith('weight') and isinstance(m, (BatchNorm2d,))` goes to
`no_decay`; everything else goes to `decay`.  Returns `true` for
`no_decay`. -/
def entryNoDecay (e : ParamEntry) : Bool :=
  if strEndsWith (paramEntryFullName e) "bias" then true
  else if strEndsWith (paramEntryFullName e) "weight" && e.moduleIsBN then true
  else false

/-- The `decay` set (as a deduplicated list of full names). -/
def decayList (m : NNModule) : List String :=
  (((paramEntries m).filter fun e => !entryNoDecay e).map paramEntryFullName).dedup

/-- The `no_decay` set (as a deduplicated list of full names). -/
def noDecayList (m : NNModule) : List String :=
  (((paramEntries m).filter fun e => entryNoDecay e).map paramEntryFullName).dedup

/-- One parameter group handed to the optimizer constructor: the ordered
parameters (by their paths) and the keyword settings of the group. -/
structure ParamGroup where
  params : List String
  opts : List (String × Rat)
  deriving Repr, DecidableEq

/-- Python dict assignment `d[k] = v` on an association list. -/
def setKey (ps : List (String × Rat)) (k : String) (v : Rat) : List (String × Rat) :=
  if ps.any fun p => p.1 == k then
    ps.map fun p => if p.1 == k then (k, v) else p
  else ps ++ [(k, v)]

/-- `configure_optimizer(model, opt_name, **opt_params)`, returning the
parameter groups handed to the optimizer constructor.  If `weight_decay`
is absent or zero, a single group with all parameters is used; otherwise
parameters are split into `decay`/`no_decay`, the two assertions are
checked (failures become `Except.error`), each group is sorted by path,
and the `no_decay` group's `weight_decay` is overwritten with `0`. -/
def configure_optimizer (m : NNModule) (opt_params : List (String × Rat)) :
    Except String (List ParamGroup) :=
  if opt_params.lookup "weight_decay" = none then
    Except.ok [⟨namedParameters m, opt_params⟩]
  else if opt_params.lookup "weight_decay" = some 0 then
    Except.ok [⟨namedParameters m, opt_params⟩]
  else
    if ((decayList m).inter (noDecayList m)).length ≠ 0 then
      Except.error "Overlapping decay and no decay"
    else if (((namedParameters m).dedup).filter fun k =>
        !decide (k ∈ (decayList m).union (noDecayList m))).length ≠ 0 then
      Except.error "Missing decay parameters"
    else
      Except.ok [⟨sortStrings (decayList m), opt_params⟩,
                 ⟨sortStrings (noDecayList m), setKey opt_params "weight_decay" 0⟩]

/-! ### Layer-freeze policy (finetune.py lines 64-87) -/

/-- The state of the model's parameters for the freeze policy: each
parameter path with its `requires_grad` flag. -/
abbrev ParamState := List (String × Bool)

/-- `for pname, param in model.named_parameters(): if 'encoder' in pname:
param.requires_grad = False`. -/
def freezeEncoder (ps : ParamState) : ParamState :=
  ps.map fun pr => if strIn "encoder" pr.1 then (pr.1, false) else pr

/-- The `finetune_layer == 'all'` branch: unfreeze every parameter whose
path contains `'encoder'`. -/
def unfreezeEncoder (ps : ParamState) : ParamState :=
  ps.map fun pr => if strIn "encoder" pr.1 then (pr.1, true) else pr

/-- One iteration of the stage loop: unfreeze every parameter whose path
contains `'encoder.{layer_name}'`. -/
def unfreezeLayer (layer_name : String) (ps : ParamState) : ParamState :=
  ps.map fun pr => if strIn ("encoder." ++ layer_name) pr.1 then (pr.1, true) else pr

/-- `valid_layers = ['stage1', 'stage2', 'stage3', 'stage4']`. -/
def validLayers : List String := ["stage1", "stage2", "stage3", "stage4"]

/-- The whole freeze policy of `main_worker`: first freeze all encoder
parameters, then dispatch on `finetune_layer` (`'none'`, `'all'`, or a
stage name, which must be in `valid_layers`, and unfreezes that stage and
all deeper ones). -/
def applyFreezePolicy (finetune_layer : String) (ps : ParamState) : Except String ParamState :=
  if finetune_layer = "none" then Except.ok (freezeEncoder ps)
  else if finetune_layer = "all" then Except.ok (unfreezeEncoder (freezeEncoder ps))
  else if finetune_layer ∈ validLayers then
    Except.ok ((validLayers.drop (validLayers.indexOf finetune_layer)).foldl
      (fun acc layer_name => unfreezeLayer layer_name acc) (freezeEncoder ps))
  else Except.error "finetune_layer not in valid_layers"

/-- The pointwise effect of the stage branch on one parameter, used to
state what the policy computes. -/
def stageUpdate (finetune_layer : String) (pr : String × Bool) : String × Bool :=
  if (validLayers.drop (validLayers.indexOf finetune_layer)).any
      (fun layer_name => strIn ("encoder." ++ layer_name) pr.1) then (pr.1, true)
  else if strIn "encoder" pr.1 then (pr.1, false)
  else pr

/-! ### Driver validation order (finetune.py `main` and `main_worker`) -/

/-- The name registries obtained by reflection in finetune.py lines 18-39
(`schedules`, `optimizers`, `augmentations`, `loss_names`); kept abstract
as input lists. -/
structure Registry where
  schedules : List String
  optimizers : List String
  loss_names : List String
  aug_names : List String

/-- The part of the training configuration that drives validation. -/
structure FTConfig where
  lr_schedule : String
  optimizer : String
  criterion : String
  finetune_layer : String
  augmentations : List String

/-- Observable driver events: allocation of a training resource, or a
validation failure (a failed `assert`) that stops the run. -/
inductive DriverEvent where
  | allocModel : DriverEvent
  | allocDataset : DriverEvent
  | allocOptimizer : DriverEvent
  | fail (msg : String) : DriverEvent
  deriving Repr, DecidableEq

/-- The ordered trace of `main` followed by `main_worker`: the three
asserts of `main` (lines 47-49), then the model load (line 59), then the
freeze-policy stage check (line 81), then the augmentation-name checks
(line 102, in list order), then dataset creation (line 121) and optimizer
creation (line 143).  Execution stops at the first failure. -/
def driverTrace (reg : Registry) (cfg : FTConfig) : List DriverEvent :=
  if ¬cfg.lr_schedule ∈ reg.schedules then [DriverEvent.fail "lr_schedule not recognized"]
  else if ¬cfg.optimizer ∈ reg.optimizers then [DriverEvent.fail "optimizer not recognized"]
  else if ¬cfg.criterion ∈ reg.loss_names then [DriverEvent.fail "criterion not recognized"]
  else
    DriverEvent.allocModel ::
      (if cfg.finetune_layer = "none" ∨ cfg.finetune_layer = "all" ∨
          cfg.finetune_layer ∈ validLayers then
        match cfg.augmentations.find?
            (fun a => !(decide (a ∈ reg.aug_names) || a == "CopyPaste")) with
        | some a => [DriverEvent.fail (a ++ " is not a valid albumentations augmentation!")]
        | none => [DriverEvent.allocDataset, DriverEvent.allocOptimizer]
      else [DriverEvent.fail "finetune_layer not in valid_layers"])

/-! ### Checkpointing (finetune.py lines 155, 167-185) -/

/-- The checkpoint bundle written by `save_checkpoint` (the dict literal of
lines 175-181); the states are abstract payloads. -/
structure Checkpoint where
  epoch : Nat
  state_dict : String
  optimizer : String
  scheduler : String
  scaler : String
  norms : String
  deriving Repr, DecidableEq

/-- `scaler.state_dict()` where `scaler` is `GradScaler() if amp else
None`: calling a method on `None` raises. -/
def scalerStateDict : Option String → Except String String
  | none => Except.error "AttributeError: NoneType object has no attribute state_dict"
  | some s => Except.ok s

/-- `os.path.join(model_dir, f"{config_name}_checkpoint.pth.tar")`. -/
def checkpointPath (model_dir config_name : String) : String :=
  model_dir ++ "/" ++ config_name ++ "_checkpoint.pth.tar"

/-- `save_now = (epoch + 1) % save_freq == 0`. -/
def saveNow (save_freq epoch : Nat) : Bool := (epoch + 1) % save_freq == 0

/-- The checkpoint step at the end of one epoch of the `main_worker`
loop: when `save_now` holds, build the bundle (evaluating
`scaler.state_dict()`, which raises when `amp` is false and `scaler` is
`None`) and write it to the checkpoint path; otherwise do nothing. -/
def epochCheckpoint (amp : Bool) (modelState optState schedState scalerState norms : String)
    (model_dir config_name : String) (save_freq epoch : Nat) :
    Except String (Option (String × Checkpoint)) :=
  if saveNow save_freq epoch then
    match scalerStateDict (if amp then some scalerState else none) with
    | Except.error e => Except.error e
    | Except.ok ss =>
        Except.ok (some (checkpointPath model_dir config_name,
          { epoch := epoch + 1, state_dict := modelState, optimizer := optState,
            scheduler := schedState, scaler := ss, norms := norms }))
  else Except.ok none

/-! ### Training loader construction (finetune.py lines 127-134) -/

/-- The arguments handed to the `DataLoader` constructor on lines 130-134. -/
structure DataLoaderArgs where
  batch_size : Nat
  shuffle : Bool
  num_workers : Nat
  pin_memory : Bool
  drop_last : Bool
  deriving Repr, DecidableEq

/-- `min(config['TRAIN']['workers'], len(train_dataset) // batch_size)`
computed on line 128 (but not used by the loader construction). -/
def cappedNumWorkers (workers datasetLen batch_size : Nat) : Nat :=
  min workers (datasetLen / batch_size)

/-- The `DataLoader(...)` call of lines 130-134: `num_workers` is
`config['TRAIN']['workers']` itself. -/
def buildTrainLoader (workers batch_size : Nat) (pin : Bool) : DataLoaderArgs :=
  { batch_size := batch_size, shuffle := true, num_workers := workers,
    pin_memory := pin, drop_last := true }

/-! ### The test widget's engine cache (_slice_inference.py lines 59-107) -/

/-- The inference engine with the inputs it was constructed from
(`TestEngine(...)` call of lines 83-93); the loaded model config is
identified by its selection key. -/
structure TestEngine where
  config : String
  inference_scale : Nat
  nms_kernel : Nat
  nms_threshold : Rat
  confidence_thr : Rat
  label_divisor : Int
  semantic_only : Bool
  fine_boundaries : Bool
  use_gpu : Bool
  deriving Repr, DecidableEq

/-- The widget inputs of one invocation. -/
structure WidgetInput where
  model_config : String
  downsampling : Nat
  min_distance_object_centers : Nat
  confidence_thr : Rat
  center_confidence_thr : Rat
  maximum_objects_per_class : Int
  semantic_only : Bool
  fine_boundaries : Bool
  use_gpu : Bool
  deriving Repr, DecidableEq

/-- The state cached on the widget function object (`widget.engine`,
`widget.last_config`, `widget.using_gpu`); `none` models a missing
attribute. -/
structure WidgetState where
  engine : Option TestEngine
  last_config : Option String
  using_gpu : Option Bool
  deriving Repr, DecidableEq

/-- `TestEngine(model_config, inference_scale=downsampling, ...)`. -/
def buildEngine (i : WidgetInput) : TestEngine :=
  { config := i.model_config
    inference_scale := i.downsampling
    nms_kernel := i.min_distance_object_centers
    nms_threshold := i.center_confidence_thr
    confidence_thr := i.confidence_thr
    label_divisor := i.maximum_objects_per_class
    semantic_only := i.semantic_only
    fine_boundaries := i.fine_boundaries
    use_gpu := i.use_gpu }

/-- `widget.engine.update_params(...)` (lines 99-107): every engine
parameter except the config and the GPU flag is overwritten. -/
def updateParamsEngine (e : TestEngine) (i : WidgetInput) : TestEngine :=
  { e with
    inference_scale := i.downsampling
    label_divisor := i.maximum_objects_per_class
    nms_threshold := i.center_confidence_thr
    nms_kernel := i.min_distance_object_centers
    confidence_thr := i.confidence_thr
    semantic_only := i.semantic_only
    fine_boundaries := i.fine_boundaries }

/-- One widget invocation (lines 76-107): default the cached
`last_config`/`using_gpu` when absent, then either construct a new engine
(no engine yet, or config or GPU flag changed) or update the parameters of
the existing one.  The Bool records whether a new engine was
constructed. -/
def widgetStep (s : WidgetState) (i : WidgetInput) : WidgetState × Bool :=
  match s.engine with
  | none =>
      ({ engine := some (buildEngine i), last_config := some i.model_config,
         using_gpu := some i.use_gpu }, true)
  | some e =>
      if ¬(s.last_config.getD i.model_config) = i.model_config ∨
          ¬i.use_gpu = (s.using_gpu.getD i.use_gpu) then
        ({ engine := some (buildEngine i), last_config := some i.model_config,
           using_gpu := some i.use_gpu }, true)
      else
        ({ engine := some (updateParamsEngine e i),
           last_config := some (s.last_config.getD i.model_config),
           using_gpu := some (s.using_gpu.getD i.use_gpu) }, false)

/-- The state before the first invocation: no cached attributes. -/
def initialWidgetState : WidgetState :=
  { engine := none, last_config := none, using_gpu := none }

/-- The widget state after a sequence of invocations. -/
def runWidget (inps : List WidgetInput) : WidgetState :=
  inps.foldl (fun s i => (widgetStep s i).1) initialWidgetState

/-- The cache invariant: either nothing is cached yet, or the cached
`last_config` and `using_gpu` are exactly the construction inputs of the
cached engine. -/
def widgetInv (s : WidgetState) : Prop :=
  (s.engine = none ∧ s.last_config = none ∧ s.using_gpu = none) ∨
  (∃ e, s.engine = some e ∧ s.last_config = some e.config ∧ s.using_gpu = some e.use_gpu)

/-! ### Concrete instances used as witnesses and counterexamples -/

/-- A small model: a non-normalization root owning `w`, with a
`BatchNorm2d` child `bn` owning `weight` and `bias`. -/
def wModel : NNModule :=
  NNModule.mk false ["w"]
    (Children.cons "bn" (NNModule.mk true ["weight", "bias"] Children.nil) Children.nil)

/-- Optimizer settings with a nonzero weight decay. -/
def wOpt : List (String × Rat) := [("lr", 1), ("weight_decay", 1)]

/-- Optimizer settings without a weight decay key. -/
def wOptNoWd : List (String × Rat) := [("lr", 1)]

/-- A non-normalization root module owning a parameter whose leaf name is
`mybias` (neither `bias` nor `weight`). -/
def c2Model : NNModule := NNModule.mk false ["mybias"] Children.nil

/-- A concrete parameter state: encoder parameters of all four stages, an
encoder parameter outside any stage, and a decoder parameter, all
initially trainable. -/
def wParams : ParamState :=
  [("encoder.stage1.0.weight", true), ("encoder.stage2.3.bias", true),
   ("encoder.stage3.1.weight", true), ("encoder.stage4.2.weight", true),
   ("encoder.stem.conv.weight", true), ("decoder.head.weight", true)]

/-- A registry of recognized names. -/
def wRegistry : Registry :=
  { schedules := ["OneCycleLR"], optimizers := ["AdamW"],
    loss_names := ["PanopticLoss"], aug_names := ["RandomCrop"] }

/-- A configuration whose only flaw is an unrecognized augmentation
name. -/
def cfgBadAug : FTConfig :=
  { lr_schedule := "OneCycleLR", optimizer := "AdamW", criterion := "PanopticLoss",
    finetune_layer := "none", augmentations := ["RandomCrop", "BogusAug"] }

/-- A widget input used to instantiate the engine-cache theorem. -/
def wInput : WidgetInput :=
  { model_config := "MitoNet", downsampling := 1, min_distance_object_centers := 3,
    confidence_thr := 1/2, center_confidence_thr := 1/10,
    maximum_objects_per_class := 20000, semantic_only := false,
    fine_boundaries := false, use_gpu := true }

/-- The `(module, parameter)` pair of `wModel`'s batch-norm weight. -/
def wEntry : ParamEntry := { modulePath := "bn", moduleIsBN := true, leafName := "weight" }

/-! ## Helper lemmas -/

theorem strLeB_total (a b : List Char) : strLeB a b = true ∨ strLeB b a = true := by
  induction a generalizing b with
  | nil => left; rfl
  | cons x xs ih =>
    cases b with
    | nil => right; rfl
    | cons y ys =>
      simp only [strLeB, Bool.or_eq_true, Bool.and_eq_true, decide_eq_true_eq]
      rcases Nat.lt_trichotomy x.toNat y.toNat with h | h | h
      · left; left; exact h
      · rcases ih ys with h' | h'
        · left; right; exact ⟨h, h'⟩
        · right; right; exact ⟨h.symm, h'⟩
      · right; left; exact h

theorem strLeB_trans (a b c : List Char) (h1 : strLeB a b = true) (h2 : strLeB b c = true) :
    strLeB a c = true := by
  induction a generalizing b c with
  | nil => rfl
  | cons x xs ih =>
    cases b with
    | nil => exact absurd h1 (by simp [strLeB])
    | cons y ys =>
      cases c with
      | nil => exact absurd h2 (by simp [strLeB])
      | cons z zs =>
        simp only [strLeB, Bool.or_eq_true, Bool.and_eq_true, decide_eq_true_eq] at h1 h2 ⊢
        rcases h1 with h1 | ⟨h1e, h1r⟩
        · rcases h2 with h2 | ⟨h2e, _⟩
          · left; exact Nat.lt_trans h1 h2
          · left; exact h2e ▸ h1
        · rcases h2 with h2 | ⟨h2e, h2r⟩
          · left; exact h1e ▸ h2
          · right; exact ⟨h1e.trans h2e, ih ys zs h1r h2r⟩

theorem strLe_total (s t : String) : strLe s t = true ∨ strLe t s = true :=
  strLeB_total _ _

theorem strLe_trans (a b c : String) (h1 : strLe a b = true) (h2 : strLe b c = true) :
    strLe a c = true := strLeB_trans _ _ _ h1 h2

theorem insertSorted_perm (x : String) (l : List String) :
    List.Perm (insertSorted x l) (x :: l) := by
  induction l with
  | nil => exact List.Perm.refl _
  | cons y ys ih =>
    simp only [insertSorted]
    split
    · exact List.Perm.refl _
    · exact List.Perm.trans (List.Perm.cons y ih) (List.Perm.swap x y ys)

theorem sortStrings_perm (l : List String) : List.Perm (sortStrings l) l := by
  induction l with
  | nil => exact List.Perm.refl _
  | cons x xs ih =>
    exact List.Perm.trans (insertSorted_perm x (sortStrings xs)) (List.Perm.cons x ih)

theorem sortStrings_mem (x : String) (l : List String) : x ∈ sortStrings l ↔ x ∈ l :=
  (sortStrings_perm l).mem_iff

theorem insertSorted_sorted (x : String) (l : List String)
    (h : List.Pairwise (fun a b => strLe a b = true) l) :
    List.Pairwise (fun a b => strLe a b = true) (insertSorted x l) := by
  induction l with
  | nil => simp [insertSorted]
  | cons y ys ih =>
    simp only [insertSorted]
    split
    · rename_i hxy
      refine List.Pairwise.cons ?_ h
      intro b hb
      rcases List.mem_cons.mp hb with rfl | hb2
      · exact hxy
      · exact strLe_trans _ _ _ hxy ((List.pairwise_cons.mp h).1 _ hb2)
    · rename_i hxy
      rw [List.pairwise_cons] at h
      rw [List.pairwise_cons]
      constructor
      · intro b hb
        have hmem := (insertSorted_perm x ys).mem_iff.mp hb
        rcases List.mem_cons.mp hmem with rfl | hb2
        · rcases strLe_total y b with h' | h'
          · exact h'
          · exact absurd h' hxy
        · exact h.1 _ hb2
      · exact ih h.2

theorem sortStrings_sorted (l : List String) :
    List.Pairwise (fun a b => strLe a b = true) (sortStrings l) := by
  induction l with
  | nil => simp [sortStrings]
  | cons x xs ih => exact insertSorted_sorted x _ ih

theorem strEndsWith_joinName (mn pn : String) : strEndsWith (joinName mn pn) pn = true := by
  unfold strEndsWith joinName
  split
  · exact decide_eq_true ( List.suffix_refl _)
  · refine decide_eq_true ?_
    rw [String.data_append]
    exact List.suffix_append _ _

theorem strEndsWith_weight_not_bias (s : String) (h : strEndsWith s "weight" = true) :
    strEndsWith s "bias" = false := by
  unfold strEndsWith at h ⊢
  refine decide_eq_false ?_
  intro hb
  have hw : "weight".data <:+ s.data := of_decide_eq_true h
  rcases List.suffix_or_suffix_of_suffix hb hw with hc | hc
  · exact absurd hc (by decide)
  · exact absurd hc (by decide)

theorem strIn_false_of_pre (a b hay : String) (hpre : a.data <+: b.data)
    (h : strIn a hay = false) : strIn b hay = false := by
  unfold strIn at h ⊢
  refine decide_eq_false ?_
  intro hb
  have ha : ¬(a.data <:+: hay.data) := of_decide_eq_false h
  exact ha ( List.IsInfix.trans ( List.IsPrefix.isInfix hpre) hb)

theorem strIn_encoder_layer_false (layer_name hay : String)
    (h : strIn "encoder" hay = false) :
    strIn ("encoder." ++ layer_name) hay = false := by
  refine strIn_false_of_pre _ _ _ ?_ h
  rw [String.data_append]
  exact List.IsPrefix.trans (by decide) ( List.prefix_append _ _)

theorem lookup_map_setOne (ps : List (String × Rat)) (k : String) (v : Rat)
    (h : (ps.any fun p => p.1 == k) = true) :
    List.lookup k (ps.map fun p => if p.1 == k then (k, v) else p) = some v := by
  induction ps with
  | nil => simp at h
  | cons p ps ih =>
    by_cases hp : p.1 = k
    · rw [List.map_cons, if_pos (beq_iff_eq.mpr hp)]
      simp [List.lookup]
    · have hp' : (p.1 == k) = false := beq_eq_false_iff_ne.mpr hp
      have hk : (k == p.1) = false := beq_eq_false_iff_ne.mpr fun hh => hp hh.symm
      simp only [List.any_cons, hp', Bool.false_or] at h
      rw [List.map_cons, if_neg (by simp [hp'])]
      simp only [List.lookup, hk]
      exact ih h

theorem lookup_map_setOne_ne (ps : List (String × Rat)) (k : String) (v : Rat) (k' : String)
    (hne : ¬k' = k) :
    List.lookup k' (ps.map fun p => if p.1 == k then (k, v) else p) = List.lookup k' ps := by
  induction ps with
  | nil => rfl
  | cons p ps ih =>
    by_cases hp : p.1 = k
    · have h1 : (k' == k) = false := beq_eq_false_iff_ne.mpr hne
      have h2 : (k' == p.1) = false := beq_eq_false_iff_ne.mpr (hp ▸ hne)
      rw [List.map_cons, if_pos (beq_iff_eq.mpr hp)]
      simp only [List.lookup, h1, h2]
      exact ih
    · have hp' : (p.1 == k) = false := beq_eq_false_iff_ne.mpr hp
      rw [List.map_cons, if_neg (by simp [hp'])]
      simp only [List.lookup]
      cases hk : (k' == p.1)
      · exact ih
      · rfl

theorem lookup_append_single (ps : List (String × Rat)) (k : String) (v : Rat)
    (h : (ps.any fun p => p.1 == k) = false) :
    List.lookup k (ps ++ [(k, v)]) = some v := by
  induction ps with
  | nil => simp [List.lookup]
  | cons p ps ih =>
    simp only [List.any_cons, Bool.or_eq_false_iff] at h
    have hk : (k == p.1) = false := by
      cases hkk : (k == p.1)
      · rfl
      · exact absurd (beq_iff_eq.mpr (beq_iff_eq.mp hkk).symm) (by simp [h.1])
    simp only [List.cons_append, List.lookup, hk]
    exact ih h.2

theorem lookup_append_single_ne (ps : List (String × Rat)) (k : String) (v : Rat) (k' : String)
    (hne : ¬k' = k) :
    List.lookup k' (ps ++ [(k, v)]) = List.lookup k' ps := by
  induction ps with
  | nil => simp [List.lookup, beq_eq_false_iff_ne.mpr hne]
  | cons p ps ih =>
    simp only [List.cons_append, List.lookup]
    cases hk : (k' == p.1)
    · exact ih
    · rfl

theorem lookup_setKey_self (ps : List (String × Rat)) (k : String) (v : Rat) :
    List.lookup k (setKey ps k v) = some v := by
  unfold setKey
  by_cases h : (ps.any fun p => p.1 == k) = true
  · rw [if_pos h]
    exact lookup_map_setOne ps k v h
  · rw [if_neg h]
    exact lookup_append_single ps k v (Bool.not_eq_true _ ▸ h)

theorem lookup_setKey_ne (ps : List (String × Rat)) (k : String) (v : Rat) (k' : String)
    (hne : ¬k' = k) :
    List.lookup k' (setKey ps k v) = List.lookup k' ps := by
  unfold setKey
  by_cases h : (ps.any fun p => p.1 == k) = true
  · rw [if_pos h]
    exact lookup_map_setOne_ne ps k v k' hne
  · rw [if_neg h]
    exact lookup_append_single_ne ps k v k' hne

theorem mem_decayList (m : NNModule) (x : String) :
    x ∈ decayList m ↔
      ∃ e ∈ paramEntries m, entryNoDecay e = false ∧ paramEntryFullName e = x := by
  unfold decayList
  rw [List.mem_dedup, List.mem_map]
  constructor
  · rintro ⟨e, he, rfl⟩
    rw [List.mem_filter] at he
    exact ⟨e, he.1, by simpa using he.2, rfl⟩
  · rintro ⟨e, he, hnd, rfl⟩
    exact ⟨e, List.mem_filter.mpr ⟨he, by simp [hnd]⟩, rfl⟩

theorem mem_noDecayList (m : NNModule) (x : String) :
    x ∈ noDecayList m ↔
      ∃ e ∈ paramEntries m, entryNoDecay e = true ∧ paramEntryFullName e = x := by
  unfold noDecayList
  rw [List.mem_dedup, List.mem_map]
  constructor
  · rintro ⟨e, he, rfl⟩
    rw [List.mem_filter] at he
    exact ⟨e, he.1, he.2, rfl⟩
  · rintro ⟨e, he, hnd, rfl⟩
    exact ⟨e, List.mem_filter.mpr ⟨he, hnd⟩, rfl⟩

theorem mem_union_decay (m : NNModule) (x : String) :
    x ∈ (decayList m).union (noDecayList m) ↔ x ∈ namedParameters m := by
  rw [show (decayList m).union (noDecayList m) = decayList m ∪ noDecayList m from rfl,
    List.mem_union_iff, mem_decayList, mem_noDecayList]
  unfold namedParameters
  rw [List.mem_map]
  constructor
  · rintro (⟨e, he, _, rfl⟩ | ⟨e, he, _, rfl⟩) <;> exact ⟨e, he, rfl⟩
  · rintro ⟨e, he, rfl⟩
    cases hnd : entryNoDecay e
    · exact Or.inl ⟨e, he, hnd, rfl⟩
    · exact Or.inr ⟨e, he, hnd, rfl⟩

theorem missing_filter_nil (m : NNModule) :
    ((namedParameters m).dedup.filter fun k =>
      !decide (k ∈ (decayList m).union (noDecayList m))) = [] := by
  rw [List.filter_eq_nil_iff]
  intro k hk
  rw [List.mem_dedup] at hk
  simp [mem_union_decay m k, hk]

theorem mem_decay_or_noDecay (m : NNModule) (x : String) :
    (x ∈ decayList m ∨ x ∈ noDecayList m) ↔ x ∈ namedParameters m := by
  rw [← mem_union_decay m x,
    show (decayList m).union (noDecayList m) = decayList m ∪ noDecayList m from rfl,
    List.mem_union_iff]

theorem mem_noDecayList_of_entry (m : NNModule) (e : ParamEntry) (he : e ∈ paramEntries m)
    (h : entryNoDecay e = true) : paramEntryFullName e ∈ noDecayList m :=
  (mem_noDecayList m _).mpr ⟨e, he, h, rfl⟩

theorem mem_decayList_of_entry (m : NNModule) (e : ParamEntry) (he : e ∈ paramEntries m)
    (h : entryNoDecay e = false) : paramEntryFullName e ∈ decayList m :=
  (mem_decayList m _).mpr ⟨e, he, h, rfl⟩

theorem inter_nil_iff (m : NNModule) :
    (decayList m).inter (noDecayList m) = [] ↔
      ∀ x, ¬(x ∈ decayList m ∧ x ∈ noDecayList m) := by
  constructor
  · intro h x hx
    have hmem : x ∈ (decayList m).inter (noDecayList m) := List.mem_inter_iff.mpr hx
    rw [h] at hmem
    exact absurd hmem (List.not_mem_nil x)
  · intro h
    rw [List.eq_nil_iff_forall_not_mem]
    intro x hx
    exact h x (List.mem_inter_iff.mp hx)

/-! ## Claim theorems -/

/-- C1: for every model module tree and optimizer configuration with a
nonzero `weight_decay`, `configure_optimizer` produces decay/no-decay
parameter groups that are disjoint and whose union is exactly the model's
named parameters; a violation of the partition (an overlap — missing
coverage is impossible, the union always covers every named parameter) is
a fatal assertion failure rather than being silently tolerated. -/
theorem c1_partition_or_fatal (m : NNModule) (opt_params : List (String × Rat)) (wd : Rat)
    (hwd : opt_params.lookup "weight_decay" = some wd) (hz : ¬wd = 0) :
    (((decayList m).inter (noDecayList m) = []) →
      ∃ g1 g2, configure_optimizer m opt_params = Except.ok [g1, g2] ∧
        (∀ x, ¬(x ∈ g1.params ∧ x ∈ g2.params)) ∧
        (∀ x, (x ∈ g1.params ∨ x ∈ g2.params) ↔ x ∈ namedParameters m)) ∧
    (¬((decayList m).inter (noDecayList m) = []) →
      configure_optimizer m opt_params = Except.error "Overlapping decay and no decay") := by
  constructor
  · intro hdisj
    refine ⟨⟨sortStrings (decayList m), opt_params⟩,
            ⟨sortStrings (noDecayList m), setKey opt_params "weight_decay" 0⟩, ?_, ?_, ?_⟩
    · unfold configure_optimizer
      rw [hwd]
      rw [if_neg (by simp), if_neg (by simp [hz]), if_neg (by simp [hdisj]),
        if_neg (by simp [missing_filter_nil])]
    · intro x hx
      have h1 := (sortStrings_mem x _).mp hx.1
      have h2 := (sortStrings_mem x _).mp hx.2
      exact (inter_nil_iff m).mp hdisj x ⟨h1, h2⟩
    · intro x
      rw [sortStrings_mem, sortStrings_mem]
      exact mem_decay_or_noDecay m x
  · intro hover
    unfold configure_optimizer
    rw [hwd]
    rw [if_neg (by simp), if_neg (by simp [hz]),
      if_pos (by simpa using fun hh => hover (List.length_eq_zero.mp hh))]

/-- C1 witness: the partition theorem instantiated at a concrete model
(`wModel`) and concrete nonzero weight decay. -/
theorem c1_partition_or_fatal_witness :
    (((decayList wModel).inter (noDecayList wModel) = []) →
      ∃ g1 g2, configure_optimizer wModel wOpt = Except.ok [g1, g2] ∧
        (∀ x, ¬(x ∈ g1.params ∧ x ∈ g2.params)) ∧
        (∀ x, (x ∈ g1.params ∨ x ∈ g2.params) ↔ x ∈ namedParameters wModel)) ∧
    (¬((decayList wModel).inter (noDecayList wModel) = []) →
      configure_optimizer wModel wOpt = Except.error "Overlapping decay and no decay") :=
  c1_partition_or_fatal wModel wOpt 1 (by rfl) (by norm_num)

/-- C5: when `weight_decay` is absent or exactly zero,
`configure_optimizer` skips partitioning and returns one group with all
of the model's parameters and the configured settings unchanged. -/
theorem c5_single_group (m : NNModule) (opt_params : List (String × Rat))
    (h : opt_params.lookup "weight_decay" = none ∨
      opt_params.lookup "weight_decay" = some 0) :
    configure_optimizer m opt_params = Except.ok [⟨namedParameters m, opt_params⟩] := by
  unfold configure_optimizer
  rcases h with h | h
  · rw [if_pos h]
  · rw [h, if_neg (by simp), if_pos rfl]

/-- C5 witness: the single-group theorem at a concrete model and settings
without a `weight_decay` key. -/
theorem c5_single_group_witness :
    configure_optimizer wModel wOptNoWd = Except.ok [⟨namedParameters wModel, wOptNoWd⟩] :=
  c5_single_group wModel wOptNoWd (Or.inl (by rfl))

/-- C6: when partitioning occurs (nonzero `weight_decay`) and succeeds,
the output is exactly two parameter groups, each sorted lexicographically
by parameter path (code-point order, `strLe`), the first carrying the
configured settings unchanged and the second the configured settings with
`weight_decay` overwritten to `0` (all other keys preserved). -/
theorem c6_two_sorted_groups (m : NNModule) (opt_params : List (String × Rat)) (wd : Rat)
    (gs : List ParamGroup) (hwd : opt_params.lookup "weight_decay" = some wd) (hz : ¬wd = 0)
    (hok : configure_optimizer m opt_params = Except.ok gs) :
    ∃ g1 g2, gs = [g1, g2] ∧
      List.Pairwise (fun a b => strLe a b = true) g1.params ∧
      List.Pairwise (fun a b => strLe a b = true) g2.params ∧
      g1.opts = opt_params ∧
      g2.opts = setKey opt_params "weight_decay" 0 ∧
      List.lookup "weight_decay" g2.opts = some 0 ∧
      (∀ k, ¬k = "weight_decay" → List.lookup k g2.opts = List.lookup k opt_params) := by
  unfold configure_optimizer at hok
  rw [hwd] at hok
  rw [if_neg (by simp), if_neg (by simp [hz])] at hok
  by_cases h1 : ((decayList m).inter (noDecayList m)).length ≠ 0
  · rw [if_pos h1] at hok
    exact absurd hok (by simp)
  · rw [if_neg h1] at hok
    by_cases h2 : (((namedParameters m).dedup).filter fun k =>
        !decide (k ∈ (decayList m).union (noDecayList m))).length ≠ 0
    · rw [if_pos h2] at hok
      exact absurd hok (by simp)
    · rw [if_neg h2] at hok
      injection hok with hgs
      refine ⟨⟨sortStrings (decayList m), opt_params⟩,
              ⟨sortStrings (noDecayList m), setKey opt_params "weight_decay" 0⟩,
              hgs.symm, ?_, ?_, rfl, rfl, ?_, ?_⟩
      · exact sortStrings_sorted _
      · exact sortStrings_sorted _
      · exact lookup_setKey_self _ _ _
      · intro k hk
        exact lookup_setKey_ne _ _ _ _ hk

/-- C6 witness: the two-group theorem at the concrete model `wModel` with
weight decay `1`. -/
theorem c6_two_sorted_groups_witness :
    ∃ g1 g2,
      ([⟨["w"], wOpt⟩,
        ⟨["bn.bias", "bn.weight"], setKey wOpt "weight_decay" 0⟩] : List ParamGroup) =
        [g1, g2] ∧
      List.Pairwise (fun a b => strLe a b = true) g1.params ∧
      List.Pairwise (fun a b => strLe a b = true) g2.params ∧
      g1.opts = wOpt ∧
      g2.opts = setKey wOpt "weight_decay" 0 ∧
      List.lookup "weight_decay" g2.opts = some 0 ∧
      (∀ k, ¬k = "weight_decay" → List.lookup k g2.opts = List.lookup k wOpt) :=
  c6_two_sorted_groups wModel wOpt 1 _ (by rfl) (by norm_num) (by rfl)

/-- C2 counterexample: a parameter whose leaf name is `mybias` (neither
`bias` nor `weight`) on a non-normalization module is an "other"
parameter in the claim's sense, yet the code assigns it to the no-decay
group, because the classification tests `full_name.endswith('bias')`
rather than the leaf name. -/
theorem c2_counterexample :
    ({ modulePath := "", moduleIsBN := false, leafName := "mybias" } : ParamEntry) ∈
        paramEntries c2Model ∧
    ¬("mybias" : String) = "bias" ∧ ¬("mybias" : String) = "weight" ∧
    "mybias" ∈ noDecayList c2Model ∧ ¬"mybias" ∈ decayList c2Model := by
  refine ⟨?_, ?_, ?_, ?_, ?_⟩ <;> decide

/-- C2 (amended): for every `(module, parameter)` pair under nonzero
weight decay, classification is by suffix of the full dotted path: a path
ending in `bias` goes to no-decay regardless of module kind; a path
ending in `weight` on a `BatchNorm2d` module goes to no-decay; every
other path goes to decay.  In particular a parameter whose leaf name is
exactly `bias` always lands in no-decay, a `weight` leaf of a
normalization module lands in no-decay, and a `weight` leaf of a
non-normalization module lands in decay — but a leaf name that merely
ends in `bias` (e.g. `mybias`) also lands in no-decay. -/
theorem c2_classification (m : NNModule) (e : ParamEntry) (he : e ∈ paramEntries m) :
    (e.leafName = "bias" → paramEntryFullName e ∈ noDecayList m) ∧
    (e.leafName = "weight" → e.moduleIsBN = true → paramEntryFullName e ∈ noDecayList m) ∧
    (e.leafName = "weight" → e.moduleIsBN = false → paramEntryFullName e ∈ decayList m) ∧
    (strEndsWith (paramEntryFullName e) "bias" = true →
      paramEntryFullName e ∈ noDecayList m) ∧
    (strEndsWith (paramEntryFullName e) "bias" = false →
      (strEndsWith (paramEntryFullName e) "weight" && e.moduleIsBN) = false →
      paramEntryFullName e ∈ decayList m) := by
  have hfull : paramEntryFullName e = joinName e.modulePath e.leafName := rfl
  refine ⟨?_, ?_, ?_, ?_, ?_⟩
  · intro h
    refine mem_noDecayList_of_entry m e he ?_
    have hb : strEndsWith (paramEntryFullName e) "bias" = true := by
      rw [hfull, h]; exact strEndsWith_joinName _ _
    unfold entryNoDecay
    rw [if_pos hb]
  · intro h hbn
    have hw : strEndsWith (paramEntryFullName e) "weight" = true := by
      rw [hfull, h]; exact strEndsWith_joinName _ _
    have hb := strEndsWith_weight_not_bias _ hw
    refine mem_noDecayList_of_entry m e he ?_
    unfold entryNoDecay
    rw [if_neg (by simp [hb]), if_pos (by simp [hw, hbn])]
  · intro h hbn
    have hw : strEndsWith (paramEntryFullName e) "weight" = true := by
      rw [hfull, h]; exact strEndsWith_joinName _ _
    have hb := strEndsWith_weight_not_bias _ hw
    refine mem_decayList_of_entry m e he ?_
    unfold entryNoDecay
    rw [if_neg (by simp [hb]), if_neg (by simp [hbn])]
  · intro hb
    refine mem_noDecayList_of_entry m e he ?_
    unfold entryNoDecay
    rw [if_pos hb]
  · intro hb hw
    refine mem_decayList_of_entry m e he ?_
    unfold entryNoDecay
    rw [if_neg (by simp [hb]), if_neg (by simp [hw])]

/-- C2 witness: the classification theorem instantiated at the
batch-norm `weight` parameter of `wModel`. -/
theorem c2_classification_witness :
    (wEntry.leafName = "bias" → paramEntryFullName wEntry ∈ noDecayList wModel) ∧
    (wEntry.leafName = "weight" → wEntry.moduleIsBN = true →
      paramEntryFullName wEntry ∈ noDecayList wModel) ∧
    (wEntry.leafName = "weight" → wEntry.moduleIsBN = false →
      paramEntryFullName wEntry ∈ decayList wModel) ∧
    (strEndsWith (paramEntryFullName wEntry) "bias" = true →
      paramEntryFullName wEntry ∈ noDecayList wModel) ∧
    (strEndsWith (paramEntryFullName wEntry) "bias" = false →
      (strEndsWith (paramEntryFullName wEntry) "weight" && wEntry.moduleIsBN) = false →
      paramEntryFullName wEntry ∈ decayList wModel) :=
  c2_classification wModel wEntry (by decide)

theorem foldl_unfreezeLayer (L : List String) (ps : ParamState) :
    L.foldl (fun acc layer_name => unfreezeLayer layer_name acc) ps =
      ps.map fun pr =>
        if L.any (fun layer_name => strIn ("encoder." ++ layer_name) pr.1) then
          (pr.1, true)
        else pr := by
  induction L generalizing ps with
  | nil => simp
  | cons l L ih =>
    rw [List.foldl_cons, ih]
    unfold unfreezeLayer
    rw [List.map_map]
    apply List.map_congr_left
    intro pr _
    by_cases h : strIn ("encoder." ++ l) pr.1 = true
    · by_cases h2 : (L.any fun layer_name => strIn ("encoder." ++ layer_name) pr.1) = true <;>
        simp [Function.comp, h, h2]
    · by_cases h2 : (L.any fun layer_name => strIn ("encoder." ++ layer_name) pr.1) = true <;>
        simp [Function.comp, h, h2]

theorem applyFreezePolicy_stage (S : String) (hn : ¬S = "none") (ha : ¬S = "all")
    (hv : S ∈ validLayers) (ps : ParamState) :
    applyFreezePolicy S ps = Except.ok (ps.map (stageUpdate S)) := by
  unfold applyFreezePolicy
  rw [if_neg hn, if_neg ha, if_pos hv, foldl_unfreezeLayer]
  unfold freezeEncoder
  rw [List.map_map]
  refine congrArg Except.ok ?_
  apply List.map_congr_left
  intro pr _
  unfold stageUpdate
  by_cases h1 : ((validLayers.drop (validLayers.indexOf S)).any
      fun layer_name => strIn ("encoder." ++ layer_name) pr.1) = true
  · by_cases h2 : strIn "encoder" pr.1 = true <;> simp [Function.comp, h1, h2]
  · by_cases h2 : strIn "encoder" pr.1 = true <;> simp [Function.comp, h1, h2]

/-- C3: for a freeze selector `S` meant as a stage name (not `none`, not
`all`): if `S` is not in the fixed stage list the policy fails; otherwise
every encoder parameter whose path contains a stage from `S` onward in
the fixed order ends trainable, and every encoder parameter containing no
stage from `S` onward (in particular one belonging only to earlier
stages) ends frozen. -/
theorem c3_stage_selector (ps : ParamState) (S : String) (hn : ¬S = "none")
    (ha : ¬S = "all") :
    (¬S ∈ validLayers →
      applyFreezePolicy S ps = Except.error "finetune_layer not in valid_layers") ∧
    (S ∈ validLayers →
      ∃ qs, applyFreezePolicy S ps = Except.ok qs ∧
        ∀ pname rg, (pname, rg) ∈ ps →
          (((validLayers.drop (validLayers.indexOf S)).any
              fun layer_name => strIn ("encoder." ++ layer_name) pname) = true →
            (pname, true) ∈ qs) ∧
          (strIn "encoder" pname = true →
            ((validLayers.drop (validLayers.indexOf S)).any
              fun layer_name => strIn ("encoder." ++ layer_name) pname) = false →
            (pname, false) ∈ qs)) := by
  constructor
  · intro hv
    unfold applyFreezePolicy
    rw [if_neg hn, if_neg ha, if_neg hv]
  · intro hv
    refine ⟨ps.map (stageUpdate S), applyFreezePolicy_stage S hn ha hv ps, ?_⟩
    intro pname rg hmem
    constructor
    · intro hany
      refine List.mem_map.mpr ⟨(pname, rg), hmem, ?_⟩
      unfold stageUpdate
      rw [if_pos hany]
    · intro henc hnotany
      refine List.mem_map.mpr ⟨(pname, rg), hmem, ?_⟩
      unfold stageUpdate
      rw [if_neg (by simp [hnotany]), if_pos henc]

/-- C3 witness: selector `stage2` on a concrete parameter state —
`encoder.stage1` parameters stay frozen, `encoder.stage2`..`stage4`
parameters become trainable. -/
theorem c3_stage_selector_witness :
    (¬("stage2" : String) ∈ validLayers →
      applyFreezePolicy "stage2" wParams =
        Except.error "finetune_layer not in valid_layers") ∧
    (("stage2" : String) ∈ validLayers →
      ∃ qs, applyFreezePolicy "stage2" wParams = Except.ok qs ∧
        ∀ pname rg, (pname, rg) ∈ wParams →
          (((validLayers.drop (validLayers.indexOf "stage2")).any
              fun layer_name => strIn ("encoder." ++ layer_name) pname) = true →
            (pname, true) ∈ qs) ∧
          (strIn "encoder" pname = true →
            ((validLayers.drop (validLayers.indexOf "stage2")).any
              fun layer_name => strIn ("encoder." ++ layer_name) pname) = false →
            (pname, false) ∈ qs)) :=
  c3_stage_selector wParams "stage2" (by decide) (by decide)

/-- C7: selector `none` leaves every encoder parameter frozen; selector
`all` leaves every encoder parameter trainable; and for every selector
that succeeds, every non-encoder parameter's `requires_grad` flag is
untouched (so a trainable decoder/head parameter remains trainable). -/
theorem c7_none_all_frame (ps : ParamState) :
    (∃ qs, applyFreezePolicy "none" ps = Except.ok qs ∧
      ∀ pname rg, (pname, rg) ∈ ps → strIn "encoder" pname = true →
        (pname, false) ∈ qs) ∧
    (∃ qs, applyFreezePolicy "all" ps = Except.ok qs ∧
      ∀ pname rg, (pname, rg) ∈ ps → strIn "encoder" pname = true →
        (pname, true) ∈ qs) ∧
    (∀ S qs, applyFreezePolicy S ps = Except.ok qs →
      ∀ pname rg, (pname, rg) ∈ ps → strIn "encoder" pname = false →
        (pname, rg) ∈ qs) := by
  refine ⟨?_, ?_, ?_⟩
  · refine ⟨freezeEncoder ps, ?_, ?_⟩
    · unfold applyFreezePolicy
      rw [if_pos rfl]
    · intro pname rg hmem henc
      refine List.mem_map.mpr ⟨(pname, rg), hmem, ?_⟩
      simp [henc]
  · refine ⟨unfreezeEncoder (freezeEncoder ps), ?_, ?_⟩
    · unfold applyFreezePolicy
      rw [if_neg (by decide), if_pos rfl]
    · intro pname rg hmem henc
      unfold unfreezeEncoder freezeEncoder
      rw [List.map_map]
      refine List.mem_map.mpr ⟨(pname, rg), hmem, ?_⟩
      simp [Function.comp, henc]
  · intro S qs hok pname rg hmem henc
    by_cases hnone : S = "none"
    · unfold applyFreezePolicy at hok
      rw [if_pos hnone] at hok
      injection hok with hqs
      rw [← hqs]
      refine List.mem_map.mpr ⟨(pname, rg), hmem, ?_⟩
      simp [henc]
    · by_cases hall : S = "all"
      · unfold applyFreezePolicy at hok
        rw [if_neg hnone, if_pos hall] at hok
        injection hok with hqs
        rw [← hqs]
        unfold unfreezeEncoder freezeEncoder
        rw [List.map_map]
        refine List.mem_map.mpr ⟨(pname, rg), hmem, ?_⟩
        simp [Function.comp, henc]
      · by_cases hv : S ∈ validLayers
        · rw [applyFreezePolicy_stage S hnone hall hv ps] at hok
          injection hok with hqs
          rw [← hqs]
          refine List.mem_map.mpr ⟨(pname, rg), hmem, ?_⟩
          unfold stageUpdate
          have hany : ((validLayers.drop (validLayers.indexOf S)).any
              fun layer_name => strIn ("encoder." ++ layer_name) pname) = false := by
            rw [List.any_eq_false]
            intro l _
            simp [strIn_encoder_layer_false l pname henc]
          rw [if_neg (by simp [hany]), if_neg (by simp [henc])]
        · unfold applyFreezePolicy at hok
          rw [if_neg hnone, if_neg hall, if_neg hv] at hok
          exact absurd hok (by simp)

/-- C7 witness: the none/all/frame theorem at a concrete parameter
state. -/
theorem c7_none_all_frame_witness :
    (∃ qs, applyFreezePolicy "none" wParams = Except.ok qs ∧
      ∀ pname rg, (pname, rg) ∈ wParams → strIn "encoder" pname = true →
        (pname, false) ∈ qs) ∧
    (∃ qs, applyFreezePolicy "all" wParams = Except.ok qs ∧
      ∀ pname rg, (pname, rg) ∈ wParams → strIn "encoder" pname = true →
        (pname, true) ∈ qs) ∧
    (∀ S qs, applyFreezePolicy S wParams = Except.ok qs →
      ∀ pname rg, (pname, rg) ∈ wParams → strIn "encoder" pname = false →
        (pname, rg) ∈ qs) :=
  c7_none_all_frame wParams

/-- C4 counterexample: with a configuration whose only flaw is an
unrecognized augmentation name, the driver allocates the model (line 59)
before the augmentation-name check fails (line 102), so it does not fail
before any training resource is allocated. -/
theorem c4_counterexample :
    driverTrace wRegistry cfgBadAug =
      [DriverEvent.allocModel,
       DriverEvent.fail "BogusAug is not a valid albumentations augmentation!"] ∧
    DriverEvent.allocModel ∈ driverTrace wRegistry cfgBadAug := by
  refine ⟨?_, ?_⟩ <;> decide

/-- C4 (amended): an unrecognized lr-schedule, optimizer, or criterion
name makes the driver fail before any training resource is allocated; an
unrecognized freeze-stage or augmentation name makes it fail after the
model has been loaded but before the dataset and the optimizer are
allocated.  The failures are assertion failures. -/
theorem c4_validation_order (reg : Registry) (cfg : FTConfig) :
    ((¬cfg.lr_schedule ∈ reg.schedules ∨ ¬cfg.optimizer ∈ reg.optimizers ∨
        ¬cfg.criterion ∈ reg.loss_names) →
      ∃ msg, driverTrace reg cfg = [DriverEvent.fail msg]) ∧
    (cfg.lr_schedule ∈ reg.schedules → cfg.optimizer ∈ reg.optimizers →
      cfg.criterion ∈ reg.loss_names →
      (¬(cfg.finetune_layer = "none" ∨ cfg.finetune_layer = "all" ∨
          cfg.finetune_layer ∈ validLayers) ∨
        ∃ a ∈ cfg.augmentations, ¬a ∈ reg.aug_names ∧ ¬a = "CopyPaste") →
      ∃ msg, driverTrace reg cfg = [DriverEvent.allocModel, DriverEvent.fail msg]) := by
  constructor
  · intro hbad
    unfold driverTrace
    by_cases h1 : cfg.lr_schedule ∈ reg.schedules
    · rw [if_neg (not_not_intro h1)]
      by_cases h2 : cfg.optimizer ∈ reg.optimizers
      · rw [if_neg (not_not_intro h2)]
        have h3 : ¬cfg.criterion ∈ reg.loss_names := by
          rcases hbad with h | h | h
          · exact absurd h1 h
          · exact absurd h2 h
          · exact h
        rw [if_pos h3]
        exact ⟨_, rfl⟩
      · rw [if_pos h2]
        exact ⟨_, rfl⟩
    · rw [if_pos h1]
      exact ⟨_, rfl⟩
  · intro h1 h2 h3 hbad
    unfold driverTrace
    rw [if_neg (not_not_intro h1), if_neg (not_not_intro h2), if_neg (not_not_intro h3)]
    by_cases hf : cfg.finetune_layer = "none" ∨ cfg.finetune_layer = "all" ∨
        cfg.finetune_layer ∈ validLayers
    · rw [if_pos hf]
      have hex : ∃ a ∈ cfg.augmentations, ¬a ∈ reg.aug_names ∧ ¬a = "CopyPaste" := by
        rcases hbad with h | h
        · exact absurd hf h
        · exact h
      have hsome : (cfg.augmentations.find? fun a =>
          !(decide (a ∈ reg.aug_names) || a == "CopyPaste")).isSome = true := by
        rw [List.find?_isSome]
        rcases hex with ⟨a, ha, hn1, hn2⟩
        exact ⟨a, ha, by simp [hn1, hn2]⟩
      cases hfind : cfg.augmentations.find? fun a =>
          !(decide (a ∈ reg.aug_names) || a == "CopyPaste") with
      | none => rw [hfind] at hsome; simp at hsome
      | some a => exact ⟨_, rfl⟩
    · rw [if_neg hf]
      exact ⟨_, rfl⟩

/-- C8: the checkpoint step writes the full bundle to
`<model_dir>/<config_name>_checkpoint.pth.tar` after epoch `e` exactly
when `e+1` is a multiple of `save_freq` — but only when `amp` is true; at
the failing input `amp = false`, `save_freq = 1`, epoch `0`, the save
raises because `scaler` is `None` and `scaler.state_dict()` is called
unconditionally, contradicting the claim (and `train`'s own explicit
support for `scaler = None`). -/
theorem c8_checkpoint_behavior :
    epochCheckpoint true "m" "o" "s" "sc" "n" "models" "cfg" 2 1 =
      Except.ok (some ("models/cfg_checkpoint.pth.tar",
        { epoch := 2, state_dict := "m", optimizer := "o", scheduler := "s",
          scaler := "sc", norms := "n" })) ∧
    epochCheckpoint true "m" "o" "s" "sc" "n" "models" "cfg" 2 0 = Except.ok none ∧
    epochCheckpoint false "m" "o" "s" "sc" "n" "models" "cfg" 1 0 =
      Except.error "AttributeError: NoneType object has no attribute state_dict" := by
  refine ⟨?_, ?_, ?_⟩ <;> rfl

theorem widgetStep_inv (s : WidgetState) (i : WidgetInput) (h : widgetInv s) :
    widgetInv (widgetStep s i).1 := by
  rcases h with ⟨he, hl, hg⟩ | ⟨e, he, hl, hg⟩
  · simp only [widgetStep, he]
    exact Or.inr ⟨buildEngine i, rfl, rfl, rfl⟩
  · simp only [widgetStep, he, hl, hg, Option.getD_some]
    by_cases hc : ¬e.config = i.model_config ∨ ¬i.use_gpu = e.use_gpu
    · rw [if_pos hc]
      exact Or.inr ⟨buildEngine i, rfl, rfl, rfl⟩
    · rw [if_neg hc]
      exact Or.inr ⟨updateParamsEngine e i, rfl, rfl, rfl⟩

theorem foldl_widget_inv (inps : List WidgetInput) (s : WidgetState) (h : widgetInv s) :
    widgetInv (inps.foldl (fun s i => (widgetStep s i).1) s) := by
  induction inps generalizing s with
  | nil => exact h
  | cons i inps ih => exact ih _ (widgetStep_inv s i h)

theorem runWidget_inv (inps : List WidgetInput) : widgetInv (runWidget inps) :=
  foldl_widget_inv inps initialWidgetState (Or.inl ⟨rfl, rfl, rfl⟩)

/-- C9: across every sequence of widget invocations, a new engine is
constructed exactly when no engine exists yet or the selected model
config or GPU flag differs from the one the current engine was built
with; otherwise the existing engine is kept and only its parameters are
updated (config and GPU flag preserved); and after every invocation the
cached `last_config` and `using_gpu` equal the engine's construction
inputs. -/
theorem c9_engine_cache (inps : List WidgetInput) (i : WidgetInput) :
    (∃ e', ((widgetStep (runWidget inps) i).1).engine = some e' ∧
      ((widgetStep (runWidget inps) i).1).last_config = some e'.config ∧
      ((widgetStep (runWidget inps) i).1).using_gpu = some e'.use_gpu) ∧
    ((widgetStep (runWidget inps) i).2 = true ↔
      ((runWidget inps).engine = none ∨
        ∃ e, (runWidget inps).engine = some e ∧
          (¬e.config = i.model_config ∨ ¬i.use_gpu = e.use_gpu))) ∧
    ((widgetStep (runWidget inps) i).2 = false →
      ∃ e, (runWidget inps).engine = some e ∧
        ((widgetStep (runWidget inps) i).1).engine = some (updateParamsEngine e i) ∧
        (updateParamsEngine e i).config = e.config ∧
        (updateParamsEngine e i).use_gpu = e.use_gpu) := by
  rcases runWidget_inv inps with ⟨he, hl, hg⟩ | ⟨e, he, hl, hg⟩
  · simp only [widgetStep, he]
    refine ⟨⟨buildEngine i, rfl, rfl, rfl⟩, ⟨fun _ => Or.inl trivial, fun _ => trivial⟩, ?_⟩
    intro hcontra
    exact absurd hcontra (by simp)
  · simp only [widgetStep, he, hl, hg, Option.getD_some]
    by_cases hc : ¬e.config = i.model_config ∨ ¬i.use_gpu = e.use_gpu
    · rw [if_pos hc]
      refine ⟨⟨buildEngine i, rfl, rfl, rfl⟩, ⟨fun _ => Or.inr ⟨e, rfl, hc⟩, fun _ => rfl⟩, ?_⟩
      intro hcontra
      exact absurd hcontra (by simp)
    · rw [if_neg hc]
      refine ⟨⟨updateParamsEngine e i, rfl, rfl, rfl⟩, ⟨?_, ?_⟩, ?_⟩
      · intro hcontra
        exact absurd hcontra (by simp)
      · rintro (hnone | ⟨e2, he2, hmis⟩)
        · exact absurd hnone (by simp)
        · injection he2 with hee
          subst hee
          exact absurd hmis hc
      · intro _
        exact ⟨e, rfl, rfl, rfl, rfl⟩

/-- C10: the training `DataLoader` is constructed with `num_workers`
equal to `TRAIN.workers` unconditionally; the cap
`min(workers, len(train_dataset) // batch_size)` computed beforehand is
never applied, so the worker count can exceed the number of batches:
with 8 workers, a dataset of 4 items and batch size 2, the loader gets 8
workers while there are only `4 / 2 = 2` batches. -/
theorem c10_loader_workers :
    (∀ workers batch_size pin,
      (buildTrainLoader workers batch_size pin).num_workers = workers) ∧
    (buildTrainLoader 8 2 false).num_workers > cappedNumWorkers 8 4 2 ∧
    cappedNumWorkers 8 4 2 = 4 / 2 := by
  refine ⟨fun _ _ _ => rfl, by decide, by decide⟩

end Empanada
